import Mathlib

/-
Verification of the simulation core of `main.py` (a pygame typing-dodge game)
against its natural-language specification.

Modelling conventions:
* Python floats that hold speeds/multipliers are modelled as exact rationals
  (ℚ).  Every float expression relevant to a claim evaluates identically in
  binary64 and in ℚ at the inputs the claims range over (the quantities are
  small integers, halves and tenths, far below any rounding boundary).
* `Block.y` is modelled as ℤ: in the source it is a float that starts at
  `-BLOCK_H` and is only ever incremented by `STEP_PX = 28`, so it always
  holds an exact small integer.
* Python `//` (floor division) on the integral values appearing here is ℤ
  division (`Int.ediv`, the `/` of ℤ in Lean, which floors for positive
  divisors); all divisors in the source are positive.
* `random.randint`/`random.choice` results are passed in explicitly as a
  `TryRand` oracle, one per loop iteration of `_spawn_block_safe`.
* The per-tick orchestration of `Game.update` is split into named phases in
  source order: acceleration, spawn, block motion, ground contact,
  hazard/collision, scoring.
-/

set_option maxHeartbeats 1000000

namespace TypingDodge

/-- COLS: number of grid columns. -/
def cols : ℤ := 10

/-- BLOCK_H: obstacle height in pixels. -/
def blockH : ℤ := 28

/-- STEP_PX: pixels per discrete fall step (equal to BLOCK_H). -/
def stepPx : ℤ := 28

/-- GROUND_Y = HEIGHT - 110 = 760 - 110. -/
def groundY : ℤ := 650

/-- SLOW_FACTOR. -/
def slowFactor : ℚ := 1

/-- MOVES_PER_SEC = 2.8, the assumed player throughput. -/
def movesPerSec : ℚ := 14 / 5

/-- SAFETY_MARGIN_MS. -/
def safetyMarginMs : ℤ := 400

/-- ACCEL_RATIO = 1.10. -/
def accelFactor : ℚ := 11 / 10

/-- ACCEL_INTERVAL_START_MS. -/
def accelIntervalStartMs : ℕ := 30000

/-- ACCEL_INTERVAL_STEP_MS. -/
def accelIntervalStepMs : ℕ := 5000

/-- ACCEL_INTERVAL_MIN_MS. -/
def accelIntervalMinMs : ℕ := 10000

/-- SPAWN_MS_LOWER_BOUND. -/
def spawnMsLowerBound : ℕ := 220

/-- A falling obstacle (`Block` in main.py).  `step_interval_ms` is the value
stored by `_recompute_step_interval`. -/
structure Block where
  start_col : ℤ
  length : ℤ
  steps_per_sec_base : ℚ
  y : ℤ
  acc_ms : ℕ
  step_interval_ms : ℕ
deriving DecidableEq

/-- `Block._recompute_step_interval`:
`max(60, int(1000 / (max(0.1, sps) / SLOW_FACTOR)))`.  The `int()` of a
positive float is its floor. -/
def recomputeStepIntervalMs (sps : ℚ) : ℕ :=
  (max 60 ⌊(1000 : ℚ) / (max (1 / 10) sps / slowFactor)⌋).toNat

/-- Block construction followed by `bind_runtime` (which recomputes the step
interval from the current effective speed): `y = -BLOCK_H`, `acc_ms = 0`. -/
def mkBlock (s l : ℤ) (base sps : ℚ) : Block :=
  { start_col := s, length := l, steps_per_sec_base := base,
    y := -blockH, acc_ms := 0, step_interval_ms := recomputeStepIntervalMs sps }

/-- The catch-up `while acc_ms >= step_interval_ms` loop of `Block.update`.
Each iteration adds one step of `STEP_PX` to `y` and subtracts the interval
from the accumulator, exactly as in the source.  The structural `fuel`
argument over-approximates the iteration count (the interval is always at
least 60, so at most `acc` iterations happen); callers pass `fuel = acc`,
which is enough fuel, so the function computes precisely the loop. -/
def drainGo (I : ℕ) : ℕ → ℤ → ℕ → ℤ × ℕ
  | 0, y, acc => (y, acc)
  | fuel + 1, y, acc =>
    if I ≤ acc then drainGo I fuel (y + stepPx) (acc - I) else (y, acc)

/-- `Block.update(dt)`: recompute the step interval from the *current*
effective speed (here passed explicitly as `sps`), add `dt` to the
accumulator, then run the catch-up loop. -/
def Block.update (sps : ℚ) (b : Block) (dt : ℕ) : Block :=
  let I := recomputeStepIntervalMs sps
  let acc := b.acc_ms + dt
  let r := drainGo I acc b.y acc
  { b with step_interval_ms := I, y := r.1, acc_ms := r.2 }

/-- `Block.hit_ground`: `y + BLOCK_H >= GROUND_Y`. -/
def Block.hitGround (b : Block) : Bool :=
  decide (groundY ≤ b.y + blockH)

/-- `Block.time_to_ground_ms`:
`max(0, (GROUND_Y - (y + BLOCK_H)) // BLOCK_H + 1) * step_interval_ms`. -/
def Block.timeToGroundMs (b : Block) : ℤ :=
  max 0 ((groundY - (b.y + blockH)) / blockH + 1) * (b.step_interval_ms : ℤ)

/-- `Game._nearest_safe_moves(player_col, start_col, length)`: collect the
distances to the safe column left of the span (if it exists) and right of the
span (if it exists); return the minimum, or 0 if neither exists. -/
def nearestSafeMoves (p s l : ℤ) : ℕ :=
  let e := s + l - 1
  let candidates : List ℕ :=
    (if 0 ≤ s - 1 then [(p - (s - 1)).natAbs] else []) ++
    (if e + 1 ≤ cols - 1 then [(p - (e + 1)).natAbs] else [])
  candidates.min?.getD 0

/-- The required escape time of `_spawn_block_safe`:
`int((moves / MOVES_PER_SEC) * 1000) + SAFETY_MARGIN_MS` (truncating `int()`
of a non-negative float, i.e. the floor). -/
def needEscapeMs (moves : ℕ) : ℤ :=
  ⌊((moves : ℚ) / movesPerSec) * 1000⌋ + safetyMarginMs

/-- Spec-side definition (C3's wording): the required escape time with a
*ceiling*, `ceil(moves / assumed_moves_per_second * 1000) + margin`. -/
def specCeilEscapeMs (moves : ℕ) : ℤ :=
  ⌈((moves : ℚ) / movesPerSec) * 1000⌉ + safetyMarginMs

/-- Spec-side definition (C3's wording, amended): the minimum distance to a
reachable safe column, 0 only when neither adjacent safe column exists. -/
def specMinSafeMoves (p s l : ℤ) : ℕ :=
  let e := s + l - 1
  if 0 ≤ s - 1 then
    if e + 1 ≤ cols - 1 then
      min (p - (s - 1)).natAbs (p - (e + 1)).natAbs
    else (p - (s - 1)).natAbs
  else
    if e + 1 ≤ cols - 1 then (p - (e + 1)).natAbs
    else 0

/-- Spec-side definition (C3's original wording): safe-move count claimed to
be 0 whenever the player is already outside the span. -/
def claimOutsideSafeMoves (p s l : ℤ) : ℕ :=
  if p < s ∨ s + l - 1 < p then 0 else specMinSafeMoves p s l

/-- One iteration of the `for _ in range(12)` loop of `_spawn_block_safe`:
the random draws of the iteration are packaged in `r`. -/
structure TryRand where
  len : ℤ
  start : ℤ
  shift : ℤ
  alt2 : ℤ
deriving DecidableEq

/-- Ranges produced by the source's `random.randint`/`random.choice` calls in
`_spawn_block_safe` for one iteration. -/
def TryRandOk (r : TryRand) : Prop :=
  2 ≤ r.len ∧ r.len ≤ 4 ∧ 0 ≤ r.start ∧ r.start + r.len ≤ cols ∧
  (r.shift = -1 ∨ r.shift = 1) ∧ 0 ≤ r.alt2 ∧ r.alt2 + (r.len - 1) ≤ cols

instance (r : TryRand) : Decidable (TryRandOk r) := by
  unfold TryRandOk; infer_instance

/-- One iteration of `_spawn_block_safe`: primary candidate, then the ±1
start-column relaxation, then the length-shrink relaxation. -/
def spawnTry (base sps : ℚ) (p : ℤ) (r : TryRand) : Option Block :=
  let b := mkBlock r.start r.len base sps
  if needEscapeMs (nearestSafeMoves p r.start r.len) ≤ b.timeToGroundMs then
    some b
  else
    let altStart := max 0 (min (cols - r.len) (r.start + r.shift))
    let b2 := mkBlock altStart r.len base sps
    if needEscapeMs (nearestSafeMoves p altStart r.len) ≤ b2.timeToGroundMs then
      some b2
    else
      if 1 < r.len then
        let len2 := r.len - 1
        let b3 := mkBlock r.alt2 len2 base sps
        if needEscapeMs (nearestSafeMoves p r.alt2 len2) ≤ b3.timeToGroundMs then
          some b3
        else none
      else none

/-- `Game._spawn_block_safe`, with the loop's random draws passed as a list
(the source runs exactly 12 iterations; a committed block ends the loop). -/
def spawnBlockSafe (base sps : ℚ) (p : ℤ) : List TryRand → Option Block
  | [] => none
  | r :: rest =>
    match spawnTry base sps p r with
    | some b => some b
    | none => spawnBlockSafe base sps p rest

/-- A ground hazard (`Explosion` in main.py). -/
structure Explosion where
  start_col : ℤ
  length : ℤ
  timer : ℤ
deriving DecidableEq

/-- `Explosion.update(dt)`: `timer -= dt`. -/
def Explosion.updateTimer (e : Explosion) (dt : ℕ) : Explosion :=
  { e with timer := e.timer - (dt : ℤ) }

/-- `Explosion.alive`: `timer > 0`. -/
def Explosion.alive (e : Explosion) : Bool :=
  decide (0 < e.timer)

/-- `GameState` in main.py. -/
inductive GameState where
  | MENU
  | PLAY
  | OVER
deriving DecidableEq

/-- The mutable state of `Game` relevant to the simulation core.  The
player's column (`self.player.col`) is flattened into `player_col`; the
selected stage preset is flattened into the two `stage_` fields. -/
structure Game where
  player_col : ℤ
  blocks : List Block
  explosions : List Explosion
  input_buf : String
  elapsed_ms : ℕ
  state : GameState
  accel_multiplier : ℚ
  accel_interval_ms : ℕ
  next_accel_due_ms : ℕ
  spawn_ms : ℕ
  spawn_acc : ℕ
  left_word : String
  right_word : String
  gameover_processed : Bool
  final_time_s : ℕ
  final_score : ℕ
  best_score : ℕ
  stage_steps_per_sec : ℚ
  stage_spawn_ms : ℕ
deriving DecidableEq

/-- `Player.move(d)`: `col = max(0, min(COLS - 1, col + d))`. -/
def movePlayer (col d : ℤ) : ℤ :=
  max 0 (min (cols - 1) (col + d))

/-- `Game._effective_steps_per_sec`. -/
def effectiveStepsPerSec (g : Game) : ℚ :=
  g.stage_steps_per_sec * g.accel_multiplier

/-- `Game._apply_acceleration`. -/
def accelStep (g : Game) : Game :=
  if g.next_accel_due_ms ≤ g.elapsed_ms then
    let m := g.accel_multiplier * accelFactor
    let interval := max accelIntervalMinMs (g.accel_interval_ms - accelIntervalStepMs)
    { g with accel_multiplier := m,
             accel_interval_ms := interval,
             next_accel_due_ms := g.next_accel_due_ms + interval,
             spawn_ms := max spawnMsLowerBound (⌊(g.stage_spawn_ms : ℚ) / m⌋.toNat) }
  else g

/-- The spawn-timer section of `Game.update`: `spawn_acc += dt`; if due, try
a safe spawn; success appends the block and zeroes the timer, deferral sets
the timer to `spawn_ms // 2`. -/
def spawnPhase (g : Game) (dt : ℕ) (rands : List TryRand) : Game :=
  let acc := g.spawn_acc + dt
  if g.spawn_ms ≤ acc then
    match spawnBlockSafe g.stage_steps_per_sec (effectiveStepsPerSec g) g.player_col rands with
    | some b => { g with blocks := g.blocks ++ [b], spawn_acc := 0 }
    | none => { g with spawn_acc := g.spawn_ms / 2 }
  else { g with spawn_acc := acc }

/-- The block-motion section of `Game.update`: every block is advanced with
the current effective speed. -/
def motionPhase (g : Game) (dt : ℕ) : Game :=
  { g with blocks := g.blocks.map (fun b => Block.update (effectiveStepsPerSec g) b dt) }

/-- The ground-contact section of `Game.update`: grounded blocks are removed
and each leaves exactly one `Explosion` over the same columns (timer 380). -/
def groundPhase (g : Game) : Game :=
  { g with blocks := g.blocks.filter (fun b => ! b.hitGround),
           explosions := g.explosions ++
             (g.blocks.filter (fun b => b.hitGround)).map
               (fun b => { start_col := b.start_col, length := b.length, timer := 380 }) }

/-- The hazard section of `Game.update`: each explosion's timer is decreased
by `dt`; a still-alive explosion overlapping the player's column sets the
state to OVER; dead explosions are dropped. -/
def hazardPhase (g : Game) (dt : ℕ) : Game :=
  let exs := g.explosions.map (fun e => e.updateTimer dt)
  let collided := exs.any (fun e =>
    e.alive && decide (e.start_col ≤ g.player_col) &&
      decide (g.player_col ≤ e.start_col + e.length - 1))
  { g with explosions := exs.filter (fun e => e.alive),
           state := if collided then GameState.OVER else g.state }

/-- The scoring section of `Game.update`: on the first tick in the OVER
state, record `final_time_s = elapsed_ms // 1000`, the score
`final_time_s * 100`, update the best score, and mark processing done. -/
def scorePhase (g : Game) : Game :=
  if g.state = GameState.OVER ∧ g.gameover_processed = false then
    let t := g.elapsed_ms / 1000
    let s := t * 100
    { g with final_time_s := t, final_score := s,
             best_score := if g.best_score < s then s else g.best_score,
             gameover_processed := true }
  else g

/-- The state just before the ground-contact section of a tick: elapsed time
accumulated, acceleration applied, spawn timer handled, blocks moved. -/
def preHazard (g : Game) (dt : ℕ) (rands : List TryRand) : Game :=
  motionPhase (spawnPhase (accelStep { g with elapsed_ms := g.elapsed_ms + dt }) dt rands) dt

/-- `Game.update(dt)`: a no-op unless the round is in PLAY; otherwise the
phases run in source order. -/
def Game.update (g : Game) (dt : ℕ) (rands : List TryRand) : Game :=
  if g.state = GameState.PLAY then
    scorePhase (hazardPhase (groundPhase (preHazard g dt rands)) dt)
  else g

/-- Iterated ticks: each element carries the tick duration and the spawn
randomness for that tick. -/
def runTicks (g : Game) (ticks : List (ℕ × List TryRand)) : Game :=
  ticks.foldl (fun h t => Game.update h t.1 t.2) g

/-- `Game.commit_input`, with the word regenerated on a match passed in as
`w` (the source pulls it from the word source). -/
def commitInput (g : Game) (w : String) : Game :=
  if g.input_buf = "" then g
  else if g.input_buf = g.left_word then
    { g with player_col := movePlayer g.player_col (-1), left_word := w,
             input_buf := "" }
  else if g.input_buf = g.right_word then
    { g with player_col := movePlayer g.player_col 1, right_word := w,
             input_buf := "" }
  else { g with input_buf := "" }

/-- `Game._start_fixed_stage`: reset the round state (best score kept), then
immediately attempt one safe spawn; a deferral sets the spawn timer to
`spawn_ms // 2`. -/
def startFixedStage (g : Game) (stageSps : ℚ) (stageSpawn : ℕ)
    (wL wR : String) (rands : List TryRand) : Game :=
  let g1 : Game :=
    { g with stage_steps_per_sec := stageSps, stage_spawn_ms := stageSpawn,
             blocks := [], explosions := [], player_col := 5, input_buf := "",
             elapsed_ms := 0, spawn_acc := 0,
             accel_multiplier := 1, accel_interval_ms := accelIntervalStartMs,
             next_accel_due_ms := accelIntervalStartMs,
             spawn_ms := max spawnMsLowerBound stageSpawn,
             gameover_processed := false, final_time_s := 0, final_score := 0,
             left_word := wL, right_word := wR,
             state := GameState.PLAY }
  match spawnBlockSafe g1.stage_steps_per_sec (effectiveStepsPerSec g1) g1.player_col rands with
  | some b => { g1 with blocks := [b], spawn_acc := 0 }
  | none => { g1 with spawn_acc := g1.spawn_ms / 2 }

/-- The monotonicity invariant of the difficulty state (C8): the multiplier
is at least its starting value 1, the ramp period is at least its floor, and
the spawn interval is exactly the clamped `stage_spawn_ms / multiplier`. -/
def GameInv (g : Game) : Prop :=
  1 ≤ g.accel_multiplier ∧
  accelIntervalMinMs ≤ g.accel_interval_ms ∧
  g.spawn_ms = max spawnMsLowerBound (⌊(g.stage_spawn_ms : ℚ) / g.accel_multiplier⌋.toNat)

instance (g : Game) : Decidable (GameInv g) := by
  unfold GameInv; infer_instance

/-- Example games used by the witnesses and counterexamples below. -/
def blockC : Block :=
  { start_col := 4, length := 3, steps_per_sec_base := 4, y := 594,
    acc_ms := 0, step_interval_ms := 250 }

def gameC : Game :=
  { player_col := 5, blocks := [blockC], explosions := [], input_buf := "",
    elapsed_ms := 0, state := GameState.PLAY, accel_multiplier := 1,
    accel_interval_ms := 30000, next_accel_due_ms := 100000, spawn_ms := 8000,
    spawn_acc := 0, left_word := "aa", right_word := "bb",
    gameover_processed := false, final_time_s := 0, final_score := 0,
    best_score := 0, stage_steps_per_sec := 4, stage_spawn_ms := 8000 }

def blockA : Block := { blockC with y := 622 }

def gameA : Game := { gameC with blocks := [blockA] }

def gameB : Game :=
  { gameC with blocks := [], player_col := 3, input_buf := "cat",
               left_word := "cat", right_word := "dog" }

def gameD : Game :=
  { gameC with player_col := 0, blocks := [], stage_steps_per_sec := 20,
               spawn_acc := 8000 }

def gameE : Game :=
  { gameC with blocks := [],
               explosions := [{ start_col := 4, length := 3, timer := 500 }],
               elapsed_ms := 42301 }

def gameO : Game := { gameC with state := GameState.OVER }

def tryEx : TryRand := { len := 3, start := 5, shift := 1, alt2 := 0 }

def tryFail : TryRand := { len := 4, start := 0, shift := -1, alt2 := 0 }

/-! ### Basic facts about the step interval and the catch-up loop -/

theorem recomputeStepIntervalMs_ge (sps : ℚ) : 60 ≤ recomputeStepIntervalMs sps := by
  unfold recomputeStepIntervalMs
  have h : (60 : ℤ) ≤ max 60 ⌊(1000 : ℚ) / (max (1 / 10) sps / slowFactor)⌋ :=
    le_max_left _ _
  omega

theorem recomputeStepIntervalMs_pos (sps : ℚ) : 0 < recomputeStepIntervalMs sps :=
  lt_of_lt_of_le (by norm_num) (recomputeStepIntervalMs_ge sps)

theorem drainGo_eq (I : ℕ) (hI : 0 < I) :
    ∀ (fuel : ℕ) (y : ℤ) (acc : ℕ), acc ≤ fuel →
      drainGo I fuel y acc = (y + stepPx * ((acc / I : ℕ) : ℤ), acc % I) := by
  intro fuel
  induction fuel with
  | zero =>
    intro y acc hacc
    have h0 : acc = 0 := Nat.le_zero.mp hacc
    subst h0
    simp [drainGo, Nat.zero_div, Nat.zero_mod]
  | succ fuel ih =>
    intro y acc hacc
    by_cases h : I ≤ acc
    · have hrec := ih (y + stepPx) (acc - I) (by omega)
      rw [drainGo, if_pos h, hrec]
      have hdiv : acc / I = (acc - I) / I + 1 := Nat.div_eq_sub_div hI h
      have hmod : acc % I = (acc - I) % I := Nat.mod_eq_sub_mod h
      rw [hdiv, hmod, Prod.mk.injEq]
      refine ⟨?_, rfl⟩
      push_cast
      ring
    · rw [drainGo, if_neg h]
      have hlt : acc < I := Nat.lt_of_not_le h
      rw [Nat.div_eq_of_lt hlt, Nat.mod_eq_of_lt hlt]
      simp

theorem blockUpdate_eq (sps : ℚ) (b : Block) (dt : ℕ) :
    Block.update sps b dt =
      { b with step_interval_ms := recomputeStepIntervalMs sps,
               y := b.y + stepPx *
                 (((b.acc_ms + dt) / recomputeStepIntervalMs sps : ℕ) : ℤ),
               acc_ms := (b.acc_ms + dt) % recomputeStepIntervalMs sps } := by
  simp only [Block.update]
  rw [drainGo_eq _ (recomputeStepIntervalMs_pos sps) _ _ _ le_rfl]

theorem nat_div_carry (I a s : ℕ) (hI : 0 < I) :
    a / I + (a % I + s) / I = (a + s) / I := by
  conv_rhs => rw [← Nat.div_add_mod a I]
  rw [Nat.add_assoc, Nat.mul_add_div hI]

theorem foldl_blockUpdate (sps : ℚ) (dts : List ℕ) :
    ∀ b : Block, b.acc_ms < recomputeStepIntervalMs sps →
      (dts.foldl (fun bb dt => Block.update sps bb dt) b).y
          = b.y + stepPx * (((b.acc_ms + dts.sum) / recomputeStepIntervalMs sps : ℕ) : ℤ)
      ∧ (dts.foldl (fun bb dt => Block.update sps bb dt) b).acc_ms
          = (b.acc_ms + dts.sum) % recomputeStepIntervalMs sps := by
  have hI : 0 < recomputeStepIntervalMs sps := recomputeStepIntervalMs_pos sps
  induction dts with
  | nil =>
    intro b hacc
    simp [Nat.div_eq_of_lt hacc, Nat.mod_eq_of_lt hacc]
  | cons d rest ih =>
    intro b hacc
    have hacc1 : (Block.update sps b d).acc_ms < recomputeStepIntervalMs sps := by
      rw [blockUpdate_eq]
      exact Nat.mod_lt _ hI
    obtain ⟨hy, ha⟩ := ih (Block.update sps b d) hacc1
    rw [blockUpdate_eq] at hy ha
    simp only at hy ha
    rw [List.foldl_cons, blockUpdate_eq]
    constructor
    · rw [hy]
      have hc : (b.acc_ms + d) / recomputeStepIntervalMs sps
            + ((b.acc_ms + d) % recomputeStepIntervalMs sps + rest.sum) / recomputeStepIntervalMs sps
          = (b.acc_ms + d + rest.sum) / recomputeStepIntervalMs sps :=
        nat_div_carry _ _ _ hI
      rw [List.sum_cons, ← Nat.add_assoc, ← hc]
      push_cast
      ring
    · rw [ha, Nat.mod_add_mod, List.sum_cons, Nat.add_assoc]

/-! ### Closed forms for the escape-time formulas and concrete intervals -/

theorem needEscapeMs_eq (k : ℕ) :
    needEscapeMs k = ((2500 * k) / 7 : ℕ) + 400 := by
  unfold needEscapeMs movesPerSec safetyMarginMs
  have h1 : ((k : ℚ) / (14 / 5)) * 1000 = ((2500 * k : ℕ) : ℚ) / ((7 : ℕ) : ℚ) := by
    push_cast
    ring
  rw [h1]
  have h2 : ⌊((2500 * k : ℕ) : ℚ) / ((7 : ℕ) : ℚ)⌋ = ((2500 * k) / 7 : ℕ) := by
    rw [Int.floor_eq_iff]
    constructor
    · rw [le_div_iff (by norm_num)]
      exact_mod_cast Nat.div_mul_le_self (2500 * k) 7
    · rw [div_lt_iff (by norm_num)]
      have : 2500 * k < ((2500 * k) / 7 + 1) * 7 := by omega
      exact_mod_cast this
  rw [h2]

theorem specCeilEscapeMs_eq (k : ℕ) :
    specCeilEscapeMs k = ((2500 * k + 6) / 7 : ℕ) + 400 := by
  unfold specCeilEscapeMs movesPerSec safetyMarginMs
  have h1 : ((k : ℚ) / (14 / 5)) * 1000 = ((2500 * k : ℕ) : ℚ) / 7 := by
    push_cast
    ring
  rw [h1]
  have h2 : ⌈((2500 * k : ℕ) : ℚ) / 7⌉ = ((2500 * k + 6) / 7 : ℕ) := by
    rw [Int.ceil_eq_iff]
    constructor
    · rw [sub_lt_iff_lt_add,
        show ((2500 * k : ℕ) : ℚ) / 7 + 1 = (((2500 * k : ℕ) : ℚ) + 7) / 7 by ring,
        lt_div_iff (by norm_num)]
      have h : ((2500 * k + 6) / 7 : ℕ) * 7 < 2500 * k + 7 := by omega
      exact_mod_cast h
    · rw [div_le_iff (by norm_num)]
      have h : 2500 * k ≤ (2500 * k + 6) / 7 * 7 := by omega
      exact_mod_cast h
  rw [h2]

theorem mkBlock_timeToGroundMs (s l : ℤ) (base sps : ℚ) :
    (mkBlock s l base sps).timeToGroundMs = 24 * (recomputeStepIntervalMs sps : ℤ) := by
  unfold mkBlock Block.timeToGroundMs groundY blockH
  norm_num

theorem recompute_one : recomputeStepIntervalMs 1 = 1000 := by
  unfold recomputeStepIntervalMs slowFactor
  rw [show max (1 / 10 : ℚ) 1 = 1 by norm_num,
    show ⌊(1000 : ℚ) / (1 / 1)⌋ = 1000 by norm_num]
  decide

theorem recompute_four : recomputeStepIntervalMs 4 = 250 := by
  unfold recomputeStepIntervalMs slowFactor
  rw [show max (1 / 10 : ℚ) 4 = 4 by norm_num,
    show ⌊(1000 : ℚ) / (4 / 1)⌋ = 250 by norm_num]
  decide

theorem recompute_twenty : recomputeStepIntervalMs 20 = 60 := by
  unfold recomputeStepIntervalMs slowFactor
  rw [show max (1 / 10 : ℚ) 20 = 20 by norm_num,
    show ⌊(1000 : ℚ) / (20 / 1)⌋ = 50 by norm_num]
  decide

/-! ### Analysis of one spawn try -/

theorem nearestSafeMoves_le_nine {p s l : ℤ} (hp0 : 0 ≤ p) (hp9 : p ≤ 9)
    (hs : 0 ≤ s) (hl : 1 ≤ l) (hsl : s + l ≤ cols) :
    nearestSafeMoves p s l ≤ 9 := by
  unfold nearestSafeMoves cols at *
  by_cases h1 : 0 ≤ s - 1 <;> by_cases h2 : s + l - 1 + 1 ≤ (10 : ℤ) - 1 <;>
    simp only [h1, h2, if_pos, if_neg, if_true, if_false, List.nil_append,
      List.append_nil, List.cons_append, List.min?, List.foldl,
      List.min?_nil, Option.getD_some, Option.getD_none, not_true, not_false_iff]
  · have := min_le_left ((p - (s - 1)).natAbs) ((p - (s + l - 1 + 1)).natAbs)
    omega
  · omega
  · omega
  · omega

theorem spawnTry_some (base sps : ℚ) (p : ℤ) (r : TryRand) (b : Block)
    (h : spawnTry base sps p r = some b) :
    needEscapeMs (nearestSafeMoves p b.start_col b.length) ≤ b.timeToGroundMs
    ∧ b.timeToGroundMs = 24 * (recomputeStepIntervalMs sps : ℤ)
    ∧ (TryRandOk r → 0 ≤ b.start_col ∧ 1 ≤ b.length ∧ b.start_col + b.length ≤ cols) := by
  simp only [spawnTry] at h
  by_cases h1 : needEscapeMs (nearestSafeMoves p r.start r.len)
      ≤ (mkBlock r.start r.len base sps).timeToGroundMs
  · rw [if_pos h1] at h
    injection h with hb
    subst hb
    refine ⟨h1, mkBlock_timeToGroundMs .., ?_⟩
    intro hok
    obtain ⟨hl2, hl4, hs0, hsl, hsh, ha0, hal⟩ := hok
    simp only [mkBlock, cols] at *
    exact ⟨hs0, by omega, by omega⟩
  · rw [if_neg h1] at h
    by_cases h2 : needEscapeMs
        (nearestSafeMoves p (max 0 (min (cols - r.len) (r.start + r.shift))) r.len)
        ≤ (mkBlock (max 0 (min (cols - r.len) (r.start + r.shift))) r.len base sps).timeToGroundMs
    · rw [if_pos h2] at h
      injection h with hb
      subst hb
      refine ⟨h2, mkBlock_timeToGroundMs .., ?_⟩
      intro hok
      obtain ⟨hl2, hl4, hs0, hsl, hsh, ha0, hal⟩ := hok
      simp only [mkBlock, cols] at *
      refine ⟨?_, by omega, ?_⟩
      · simp only [max_def, min_def]
        split_ifs <;> omega
      · simp only [max_def, min_def]
        split_ifs <;> omega
    · rw [if_neg h2] at h
      by_cases h3 : (1 : ℤ) < r.len
      · rw [if_pos h3] at h
        by_cases h4 : needEscapeMs (nearestSafeMoves p r.alt2 (r.len - 1))
            ≤ (mkBlock r.alt2 (r.len - 1) base sps).timeToGroundMs
        · rw [if_pos h4] at h
          injection h with hb
          subst hb
          refine ⟨h4, mkBlock_timeToGroundMs .., ?_⟩
          intro hok
          obtain ⟨hl2, hl4, hs0, hsl, hsh, ha0, hal⟩ := hok
          simp only [mkBlock, cols] at *
          exact ⟨ha0, by omega, by omega⟩
        · rw [if_neg h4] at h
          cases h
      · rw [if_neg h3] at h
        cases h

theorem ceil_le_of_need_le {k I : ℕ} (hk : k ≤ 9) (hI : 60 ≤ I)
    (h : needEscapeMs k ≤ 24 * (I : ℤ)) : specCeilEscapeMs k ≤ 24 * (I : ℤ) := by
  rw [needEscapeMs_eq] at h
  rw [specCeilEscapeMs_eq]
  interval_cases k <;> omega

/-- C1: every obstacle committed by the safe spawner at any relaxation stage
satisfies, at the moment of creation, required-escape-time ≤ time-to-ground:
with the code's truncating escape time unconditionally, and also with the
ceiling reading of the escape time whenever the player column is on the field
and the random draws are in the ranges `random.randint`/`random.choice`
produce. -/
theorem committed_block_escape_safe (base sps : ℚ) (p : ℤ)
    (rands : List TryRand) (b : Block)
    (h : spawnBlockSafe base sps p rands = some b) :
    needEscapeMs (nearestSafeMoves p b.start_col b.length) ≤ b.timeToGroundMs
    ∧ (0 ≤ p → p ≤ 9 → (∀ r ∈ rands, TryRandOk r) →
        specCeilEscapeMs (nearestSafeMoves p b.start_col b.length) ≤ b.timeToGroundMs) := by
  induction rands with
  | nil => cases h
  | cons r rest ih =>
    unfold spawnBlockSafe at h
    cases htry : spawnTry base sps p r with
    | some b0 =>
      rw [htry] at h
      injection h with hb
      subst hb
      obtain ⟨hsafe, httg, hspan⟩ := spawnTry_some base sps p r b0 htry
      refine ⟨hsafe, ?_⟩
      intro hp0 hp9 hok
      obtain ⟨hs0, hl1, hsl⟩ := hspan (hok r (List.mem_cons_self r rest))
      have hmoves : nearestSafeMoves p b0.start_col b0.length ≤ 9 :=
        nearestSafeMoves_le_nine hp0 hp9 hs0 hl1 hsl
      rw [httg] at hsafe ⊢
      exact ceil_le_of_need_le hmoves (recomputeStepIntervalMs_ge sps) hsafe
    | none =>
      rw [htry] at h
      obtain ⟨h1, h2⟩ := ih h
      refine ⟨h1, fun hp0 hp9 hok => h2 hp0 hp9 ?_⟩
      intro r2 hr2
      exact hok r2 (List.mem_cons_of_mem r hr2)

/-- C1 witness: a concrete committed spawn (stage-1 speed, player at column
5, span starting at 5 of length 3) satisfies both escape-time bounds. -/
theorem committed_block_escape_safe_check :
    needEscapeMs (nearestSafeMoves 5 (mkBlock 5 3 1 1).start_col (mkBlock 5 3 1 1).length)
        ≤ (mkBlock 5 3 1 1).timeToGroundMs
    ∧ specCeilEscapeMs (nearestSafeMoves 5 (mkBlock 5 3 1 1).start_col (mkBlock 5 3 1 1).length)
        ≤ (mkBlock 5 3 1 1).timeToGroundMs := by
  have hspawn : spawnBlockSafe 1 1 5 [tryEx] = some (mkBlock 5 3 1 1) := by
    unfold spawnBlockSafe spawnTry tryEx
    simp only [needEscapeMs_eq, mkBlock_timeToGroundMs, recompute_one]
    rw [if_pos (by decide)]
  have h := committed_block_escape_safe 1 1 5 [tryEx] (mkBlock 5 3 1 1) hspawn
  exact ⟨h.1, h.2 (by decide) (by decide) (by decide)⟩

/-- C2: obstacle motion is frame-rate independent.  For a fixed effective
fall speed (hence a fixed recomputed step interval) and any sequence of tick
durations summing to `N` step intervals, folding `Block.update` over the
ticks advances `y` by exactly `N * STEP_PX` and returns the accumulator to
its starting value, however the total time is split. -/
theorem block_motion_framerate_independent (sps : ℚ) (b : Block) (N : ℕ)
    (dts : List ℕ)
    (hacc : b.acc_ms < recomputeStepIntervalMs sps)
    (hsum : dts.sum = N * recomputeStepIntervalMs sps) :
    (dts.foldl (fun bb dt => Block.update sps bb dt) b).y = b.y + (N : ℤ) * stepPx
    ∧ (dts.foldl (fun bb dt => Block.update sps bb dt) b).acc_ms = b.acc_ms := by
  obtain ⟨hy, ha⟩ := foldl_blockUpdate sps dts b hacc
  rw [hsum] at hy ha
  have hI : 0 < recomputeStepIntervalMs sps := recomputeStepIntervalMs_pos sps
  have hdiv : (b.acc_ms + N * recomputeStepIntervalMs sps) / recomputeStepIntervalMs sps = N := by
    rw [Nat.add_mul_div_right _ _ hI, Nat.div_eq_of_lt hacc]
    omega
  have hmod : (b.acc_ms + N * recomputeStepIntervalMs sps) % recomputeStepIntervalMs sps
      = b.acc_ms := by
    rw [Nat.add_mul_mod_self_right, Nat.mod_eq_of_lt hacc]
  rw [hdiv] at hy
  rw [hmod] at ha
  refine ⟨?_, ha⟩
  rw [hy]
  ring

/-- C2 witness: at stage-1 speed (interval 1000 ms), splitting 2000 ms as
500 + 1500 advances a fresh block by exactly 2 steps and restores the
accumulator. -/
theorem block_motion_framerate_independent_check :
    (([500, 1500] : List ℕ).foldl (fun bb dt => Block.update 1 bb dt) (mkBlock 2 2 1 1)).y
        = (mkBlock 2 2 1 1).y + (2 : ℤ) * stepPx
    ∧ (([500, 1500] : List ℕ).foldl (fun bb dt => Block.update 1 bb dt) (mkBlock 2 2 1 1)).acc_ms
        = (mkBlock 2 2 1 1).acc_ms :=
  block_motion_framerate_independent 1 (mkBlock 2 2 1 1) 2 [500, 1500]
    (by rw [recompute_one]; decide) (by rw [recompute_one]; decide)

/-- C10: the catch-up loop of `Block.update` terminates.  The recomputed
step interval is always at least 60 (so positive); whenever the loop guard
holds the accumulator strictly decreases by one interval per iteration; and
the update is total, leaving an accumulator equal to `(acc + dt) mod
interval`, strictly below the interval. -/
theorem catchup_loop_terminates :
    (∀ sps : ℚ, 60 ≤ recomputeStepIntervalMs sps)
    ∧ (∀ I acc : ℕ, 60 ≤ I → I ≤ acc → acc - I < acc)
    ∧ (∀ (I fuel : ℕ) (y : ℤ) (acc : ℕ), I ≤ acc →
        drainGo I (fuel + 1) y acc = drainGo I fuel (y + stepPx) (acc - I))
    ∧ (∀ (sps : ℚ) (b : Block) (dt : ℕ),
        (Block.update sps b dt).acc_ms = (b.acc_ms + dt) % recomputeStepIntervalMs sps
        ∧ (Block.update sps b dt).acc_ms < recomputeStepIntervalMs sps) := by
  refine ⟨recomputeStepIntervalMs_ge, ?_, ?_, ?_⟩
  · intro I acc hI hle
    omega
  · intro I fuel y acc hle
    rw [drainGo, if_pos hle]
  · intro sps b dt
    rw [blockUpdate_eq]
    exact ⟨rfl, Nat.mod_lt _ (recomputeStepIntervalMs_pos sps)⟩

/-- C10 witness: concrete instances of each conjunct. -/
theorem catchup_loop_terminates_check :
    60 ≤ recomputeStepIntervalMs 1
    ∧ 100 - 60 < 100
    ∧ drainGo 60 1 0 100 = drainGo 60 0 (0 + stepPx) (100 - 60)
    ∧ (Block.update 1 (mkBlock 4 3 1 1) 250).acc_ms
        = ((mkBlock 4 3 1 1).acc_ms + 250) % recomputeStepIntervalMs 1 := by
  obtain ⟨h1, h2, h3, h4⟩ := catchup_loop_terminates
  exact ⟨h1 1, h2 60 100 (by decide) (by decide), h3 60 0 0 100 (by decide),
    (h4 1 (mkBlock 4 3 1 1) 250).1⟩

/-- C3 counterexample: the claim says the safe-move count is 0 whenever the
player is outside the span, and that the escape time uses a ceiling.  With
the player at column 0 and the span `[5,7]` the player is outside the span,
yet the code computes 4 moves; and for one move the code's truncating escape
time is 757 ms where the ceiling reading gives 758 ms. -/
theorem safe_moves_claim_cex :
    (¬ (5 ≤ (0 : ℤ) ∧ (0 : ℤ) ≤ 5 + 3 - 1))
    ∧ claimOutsideSafeMoves 0 5 3 = 0
    ∧ nearestSafeMoves 0 5 3 = 4
    ∧ needEscapeMs 1 = 757
    ∧ specCeilEscapeMs 1 = 758 := by
  refine ⟨by decide, by decide, by decide, ?_, ?_⟩
  · rw [needEscapeMs_eq]
    decide
  · rw [specCeilEscapeMs_eq]
    decide

/-- C3 (amended): the safe-move count is always the minimum absolute column
distance to a reachable safe column (s-1 if it is on the field, e+1 if it
is), 0 only when neither exists, regardless of whether the player is inside
the span; and the required escape time is the truncation
`floor(moves / 2.8 * 1000) + 400` (not a ceiling). -/
theorem safe_moves_characterization :
    (∀ p s l : ℤ, nearestSafeMoves p s l = specMinSafeMoves p s l)
    ∧ (∀ k : ℕ, needEscapeMs k = ((2500 * k) / 7 : ℕ) + 400) := by
  constructor
  · intro p s l
    simp only [nearestSafeMoves, specMinSafeMoves]
    rw [show s + l - 1 + 1 = s + l by ring]
    by_cases h1 : 0 ≤ s - 1 <;> by_cases h2 : s + l ≤ cols - 1 <;>
      simp [h1, h2, List.min?, List.foldl_cons, List.foldl_nil]
  · exact needEscapeMs_eq

/-! ### Field-preservation lemmas for the tick phases -/

theorem accelStep_state (g : Game) : (accelStep g).state = g.state := by
  unfold accelStep; split <;> rfl

theorem accelStep_spawn_acc (g : Game) : (accelStep g).spawn_acc = g.spawn_acc := by
  unfold accelStep; split <;> rfl

theorem accelStep_player_col (g : Game) : (accelStep g).player_col = g.player_col := by
  unfold accelStep; split <;> rfl

theorem accelStep_blocks (g : Game) : (accelStep g).blocks = g.blocks := by
  unfold accelStep; split <;> rfl

theorem accelStep_explosions (g : Game) : (accelStep g).explosions = g.explosions := by
  unfold accelStep; split <;> rfl

theorem accelStep_elapsed (g : Game) : (accelStep g).elapsed_ms = g.elapsed_ms := by
  unfold accelStep; split <;> rfl

theorem accelStep_processed (g : Game) :
    (accelStep g).gameover_processed = g.gameover_processed := by
  unfold accelStep; split <;> rfl

theorem accelStep_stage_sps (g : Game) :
    (accelStep g).stage_steps_per_sec = g.stage_steps_per_sec := by
  unfold accelStep; split <;> rfl

theorem accelStep_stage_spawn (g : Game) :
    (accelStep g).stage_spawn_ms = g.stage_spawn_ms := by
  unfold accelStep; split <;> rfl

theorem spawnPhase_state (g : Game) (dt : ℕ) (rands : List TryRand) :
    (spawnPhase g dt rands).state = g.state := by
  simp only [spawnPhase]
  split <;> (try split) <;> rfl

theorem spawnPhase_player_col (g : Game) (dt : ℕ) (rands : List TryRand) :
    (spawnPhase g dt rands).player_col = g.player_col := by
  simp only [spawnPhase]
  split <;> (try split) <;> rfl

theorem spawnPhase_elapsed (g : Game) (dt : ℕ) (rands : List TryRand) :
    (spawnPhase g dt rands).elapsed_ms = g.elapsed_ms := by
  simp only [spawnPhase]
  split <;> (try split) <;> rfl

theorem spawnPhase_processed (g : Game) (dt : ℕ) (rands : List TryRand) :
    (spawnPhase g dt rands).gameover_processed = g.gameover_processed := by
  simp only [spawnPhase]
  split <;> (try split) <;> rfl

theorem spawnPhase_explosions (g : Game) (dt : ℕ) (rands : List TryRand) :
    (spawnPhase g dt rands).explosions = g.explosions := by
  simp only [spawnPhase]
  split <;> (try split) <;> rfl

theorem spawnPhase_mult (g : Game) (dt : ℕ) (rands : List TryRand) :
    (spawnPhase g dt rands).accel_multiplier = g.accel_multiplier := by
  simp only [spawnPhase]
  split <;> (try split) <;> rfl

theorem spawnPhase_interval (g : Game) (dt : ℕ) (rands : List TryRand) :
    (spawnPhase g dt rands).accel_interval_ms = g.accel_interval_ms := by
  simp only [spawnPhase]
  split <;> (try split) <;> rfl

theorem spawnPhase_spawn_ms (g : Game) (dt : ℕ) (rands : List TryRand) :
    (spawnPhase g dt rands).spawn_ms = g.spawn_ms := by
  simp only [spawnPhase]
  split <;> (try split) <;> rfl

theorem spawnPhase_stage_sps (g : Game) (dt : ℕ) (rands : List TryRand) :
    (spawnPhase g dt rands).stage_steps_per_sec = g.stage_steps_per_sec := by
  simp only [spawnPhase]
  split <;> (try split) <;> rfl

theorem spawnPhase_stage_spawn (g : Game) (dt : ℕ) (rands : List TryRand) :
    (spawnPhase g dt rands).stage_spawn_ms = g.stage_spawn_ms := by
  simp only [spawnPhase]
  split <;> (try split) <;> rfl

theorem scorePhase_state (g : Game) : (scorePhase g).state = g.state := by
  unfold scorePhase; split <;> rfl

theorem scorePhase_blocks (g : Game) : (scorePhase g).blocks = g.blocks := by
  unfold scorePhase; split <;> rfl

theorem scorePhase_explosions (g : Game) : (scorePhase g).explosions = g.explosions := by
  unfold scorePhase; split <;> rfl

theorem scorePhase_spawn_acc (g : Game) : (scorePhase g).spawn_acc = g.spawn_acc := by
  unfold scorePhase; split <;> rfl

theorem scorePhase_mult (g : Game) : (scorePhase g).accel_multiplier = g.accel_multiplier := by
  unfold scorePhase; split <;> rfl

theorem scorePhase_interval (g : Game) :
    (scorePhase g).accel_interval_ms = g.accel_interval_ms := by
  unfold scorePhase; split <;> rfl

theorem scorePhase_spawn_ms (g : Game) : (scorePhase g).spawn_ms = g.spawn_ms := by
  unfold scorePhase; split <;> rfl

theorem scorePhase_stage_spawn (g : Game) :
    (scorePhase g).stage_spawn_ms = g.stage_spawn_ms := by
  unfold scorePhase; split <;> rfl

theorem update_not_play (g : Game) (dt : ℕ) (rands : List TryRand)
    (h : g.state ≠ GameState.PLAY) : Game.update g dt rands = g := by
  unfold Game.update
  rw [if_neg h]

/-! ### C4: deferral adds no obstacle and halves the spawn timer -/

theorem spawnPhase_deferred (g : Game) (dt : ℕ) (rands : List TryRand)
    (hdue : g.spawn_ms ≤ g.spawn_acc + dt)
    (hfail : spawnBlockSafe g.stage_steps_per_sec (effectiveStepsPerSec g)
        g.player_col rands = none) :
    spawnPhase g dt rands = { g with spawn_acc := g.spawn_ms / 2 } := by
  simp only [spawnPhase, hfail]
  rw [if_pos hdue]

theorem motionPhase_spawn_acc (g : Game) (dt : ℕ) :
    (motionPhase g dt).spawn_acc = g.spawn_acc := rfl

theorem groundPhase_spawn_acc (g : Game) :
    (groundPhase g).spawn_acc = g.spawn_acc := rfl

theorem hazardPhase_spawn_acc (g : Game) (dt : ℕ) :
    (hazardPhase g dt).spawn_acc = g.spawn_acc := rfl

theorem hazardPhase_blocks (g : Game) (dt : ℕ) :
    (hazardPhase g dt).blocks = g.blocks := rfl

theorem motionPhase_blocks (g : Game) (dt : ℕ) :
    (motionPhase g dt).blocks
      = g.blocks.map (fun b => Block.update (effectiveStepsPerSec g) b dt) := rfl

theorem groundPhase_blocks (g : Game) :
    (groundPhase g).blocks = g.blocks.filter (fun b => ! b.hitGround) := rfl

/-- C4: if the spawner exhausts all its tries without a safety success on a
tick where a spawn was due, then the tick adds no obstacle — the resulting
active set is exactly the old blocks, moved and with grounded ones removed —
and the spawn-timer accumulator is set to half the (post-acceleration) spawn
interval, so the next attempt comes before a full interval but not
immediately. -/
theorem spawn_deferral_no_block (g : Game) (dt : ℕ) (rands : List TryRand)
    (hplay : g.state = GameState.PLAY)
    (hlen : rands.length = 12)
    (hdue : (accelStep { g with elapsed_ms := g.elapsed_ms + dt }).spawn_ms ≤ g.spawn_acc + dt)
    (hfail : spawnBlockSafe g.stage_steps_per_sec
        (g.stage_steps_per_sec *
          (accelStep { g with elapsed_ms := g.elapsed_ms + dt }).accel_multiplier)
        g.player_col rands = none) :
    (Game.update g dt rands).spawn_acc
        = (accelStep { g with elapsed_ms := g.elapsed_ms + dt }).spawn_ms / 2
    ∧ (Game.update g dt rands).blocks
        = (g.blocks.map (fun b =>
            Block.update (g.stage_steps_per_sec *
              (accelStep { g with elapsed_ms := g.elapsed_ms + dt }).accel_multiplier) b dt)).filter
            (fun b => ! b.hitGround) := by
  rw [Game.update, if_pos hplay]
  unfold preHazard
  have hdue2 : (accelStep { g with elapsed_ms := g.elapsed_ms + dt }).spawn_ms
      ≤ (accelStep { g with elapsed_ms := g.elapsed_ms + dt }).spawn_acc + dt := by
    rw [accelStep_spawn_acc]
    exact hdue
  have hfail2 : spawnBlockSafe
      (accelStep { g with elapsed_ms := g.elapsed_ms + dt }).stage_steps_per_sec
      (effectiveStepsPerSec (accelStep { g with elapsed_ms := g.elapsed_ms + dt }))
      (accelStep { g with elapsed_ms := g.elapsed_ms + dt }).player_col rands = none := by
    unfold effectiveStepsPerSec
    rw [accelStep_stage_sps, accelStep_player_col]
    exact hfail
  rw [spawnPhase_deferred _ _ _ hdue2 hfail2]
  constructor
  · rw [scorePhase_spawn_acc, hazardPhase_spawn_acc, groundPhase_spawn_acc,
      motionPhase_spawn_acc]
  · rw [scorePhase_blocks, hazardPhase_blocks, groundPhase_blocks, motionPhase_blocks]
    simp only [effectiveStepsPerSec, accelStep_stage_sps, accelStep_blocks]

/-- C4 witness: with the player cornered at column 0 at a high effective
speed (interval 60 ms, time-to-ground 1440 ms), every relaxation stage of
every one of the 12 tries fails, no block is created, and the spawn timer is
set to 8000 / 2 = 4000. -/
theorem spawn_deferral_no_block_check :
    (Game.update gameD 16 (List.replicate 12 tryFail)).spawn_acc = 4000
    ∧ (Game.update gameD 16 (List.replicate 12 tryFail)).blocks = [] := by
  have htry : spawnTry (20 : ℚ) (20 * 1 : ℚ) 0 tryFail = none := by
    simp only [spawnTry, tryFail, needEscapeMs_eq, mkBlock_timeToGroundMs, mul_one,
      recompute_twenty]
    decide
  have hfail : ∀ n : ℕ, spawnBlockSafe (20 : ℚ) (20 * 1 : ℚ) 0 (List.replicate n tryFail) = none := by
    intro n
    induction n with
    | zero => rfl
    | succ n ih =>
      rw [List.replicate_succ]
      unfold spawnBlockSafe
      rw [htry]
      exact ih
  have haccel : accelStep { gameD with elapsed_ms := gameD.elapsed_ms + 16 } =
      { gameD with elapsed_ms := gameD.elapsed_ms + 16 } := by
    unfold accelStep
    rw [if_neg (by decide)]
  have h := spawn_deferral_no_block gameD 16 (List.replicate 12 tryFail) rfl
    (by decide)
    (by rw [haccel]; decide)
    (by rw [haccel]; exact hfail 12)
  obtain ⟨h1, h2⟩ := h
  rw [haccel] at h1 h2
  constructor
  · rw [h1]
    decide
  · rw [h2]
    rfl

/-! ### C5: game-over is sticky -/

theorem runTicks_over (ticks : List (ℕ × List TryRand)) :
    ∀ g : Game, g.state = GameState.OVER → (runTicks g ticks).state = GameState.OVER := by
  induction ticks with
  | nil => intro g hg; exact hg
  | cons t ts ih =>
    intro g hg
    unfold runTicks
    rw [List.foldl_cons]
    have hne : g.state ≠ GameState.PLAY := by rw [hg]; decide
    rw [update_not_play g t.1 t.2 hne]
    exact ih g hg

theorem commitInput_state (g : Game) (w : String) :
    (commitInput g w).state = g.state := by
  unfold commitInput
  split_ifs <;> rfl

/-- C5: game-over is sticky.  Once the state is OVER, any sequence of further
ticks of `Game.update` leaves it OVER (an OVER tick is a complete no-op), and
committing input never changes the state either; only the explicit round
restart (`startFixedStage`) sets the state back to PLAY. -/
theorem game_over_sticky (g : Game) (hg : g.state = GameState.OVER) :
    (∀ ticks : List (ℕ × List TryRand), (runTicks g ticks).state = GameState.OVER)
    ∧ (∀ dt rands, Game.update g dt rands = g)
    ∧ (∀ w : String, (commitInput g w).state = GameState.OVER) := by
  refine ⟨fun ticks => runTicks_over ticks g hg, ?_, ?_⟩
  · intro dt rands
    exact update_not_play g dt rands (by rw [hg]; decide)
  · intro w
    rw [commitInput_state]
    exact hg

/-- C5 witness: a concrete OVER state stays OVER across a tick and a commit. -/
theorem game_over_sticky_check :
    (runTicks gameO [(16, [])]).state = GameState.OVER
    ∧ (commitInput gameO "zz").state = GameState.OVER := by
  have h := game_over_sticky gameO rfl
  exact ⟨h.1 [(16, [])], h.2.2 "zz"⟩

/-! ### C6: landing, hazard creation and the same-tick collision check -/

theorem spawnPhase_not_due (g : Game) (dt : ℕ) (rands : List TryRand)
    (h : ¬ g.spawn_ms ≤ g.spawn_acc + dt) :
    spawnPhase g dt rands = { g with spawn_acc := g.spawn_acc + dt } := by
  simp only [spawnPhase]
  split
  next hc => exact absurd hc h
  next hc => rfl

theorem preHazard_player_col (g : Game) (dt : ℕ) (rands : List TryRand) :
    (preHazard g dt rands).player_col = g.player_col := by
  unfold preHazard
  show (spawnPhase (accelStep { g with elapsed_ms := g.elapsed_ms + dt }) dt rands).player_col
      = g.player_col
  rw [spawnPhase_player_col, accelStep_player_col]

/-- C6 counterexample: in `gameC` the single falling block spans columns
4–6 with the player standing at column 5, and it reaches the ground during
a 380 ms tick; yet after that tick the state is still PLAY and the hazard
list is empty — the hazard expired in the very tick of its creation (timer
380 - 380 = 0), so no collision check ever saw it, and the claimed
land-implies-check-that-tick property fails. -/
theorem landing_collision_claim_cex :
    gameC.state = GameState.PLAY
    ∧ gameC.blocks = [blockC]
    ∧ blockC.start_col ≤ gameC.player_col
    ∧ gameC.player_col ≤ blockC.start_col + blockC.length - 1
    ∧ Block.hitGround (Block.update (effectiveStepsPerSec gameC) blockC 380) = true
    ∧ (Game.update gameC 380 []).state = GameState.PLAY
    ∧ (Game.update gameC 380 []).blocks = []
    ∧ (Game.update gameC 380 []).explosions = [] := by
  have heff : effectiveStepsPerSec gameC = 4 := by
    simp [effectiveStepsPerSec, gameC]
  have hb : Block.update 4 blockC 380
      = { start_col := 4, length := 3, steps_per_sec_base := 4, y := 622,
          acc_ms := 130, step_interval_ms := 250 } := by
    rw [blockUpdate_eq, recompute_four]
    simp [blockC, stepPx]
  have hacc : accelStep { gameC with elapsed_ms := gameC.elapsed_ms + 380 }
      = { gameC with elapsed_ms := gameC.elapsed_ms + 380 } := by
    unfold accelStep
    rw [if_neg (by decide)]
  have hspawn : spawnPhase { gameC with elapsed_ms := gameC.elapsed_ms + 380 } 380 []
      = { gameC with elapsed_ms := gameC.elapsed_ms + 380,
                     spawn_acc := gameC.spawn_acc + 380 } := by
    apply spawnPhase_not_due
    decide
  have heff2 : effectiveStepsPerSec
      { gameC with elapsed_ms := gameC.elapsed_ms + 380,
                   spawn_acc := gameC.spawn_acc + 380 } = 4 := by
    simp [effectiveStepsPerSec, gameC]
  have hmot : motionPhase
      { gameC with elapsed_ms := gameC.elapsed_ms + 380,
                   spawn_acc := gameC.spawn_acc + 380 } 380
      = { gameC with elapsed_ms := gameC.elapsed_ms + 380,
                     spawn_acc := gameC.spawn_acc + 380,
                     blocks := [{ start_col := 4, length := 3, steps_per_sec_base := 4,
                                  y := 622, acc_ms := 130, step_interval_ms := 250 }] } := by
    unfold motionPhase
    rw [heff2]
    show _ = _
    congr 1
    show List.map (fun b => Block.update 4 b 380) [blockC] = _
    rw [List.map_cons, List.map_nil, hb]
  have hpre : preHazard gameC 380 []
      = { gameC with elapsed_ms := gameC.elapsed_ms + 380,
                     spawn_acc := gameC.spawn_acc + 380,
                     blocks := [{ start_col := 4, length := 3, steps_per_sec_base := 4,
                                  y := 622, acc_ms := 130, step_interval_ms := 250 }] } := by
    unfold preHazard
    rw [hacc, hspawn, hmot]
  have hgr : groundPhase (preHazard gameC 380 [])
      = { gameC with elapsed_ms := gameC.elapsed_ms + 380,
                     spawn_acc := gameC.spawn_acc + 380,
                     blocks := [],
                     explosions := [{ start_col := 4, length := 3, timer := 380 }] } := by
    rw [hpre]
    unfold groundPhase
    simp [Block.hitGround, groundY, blockH, gameC]
  have hhaz : hazardPhase (groundPhase (preHazard gameC 380 [])) 380
      = { gameC with elapsed_ms := gameC.elapsed_ms + 380,
                     spawn_acc := gameC.spawn_acc + 380,
                     blocks := [],
                     explosions := [] } := by
    rw [hgr]
    unfold hazardPhase
    simp [Explosion.updateTimer, Explosion.alive, gameC]
  have hupd : Game.update gameC 380 []
      = { gameC with elapsed_ms := gameC.elapsed_ms + 380,
                     spawn_acc := gameC.spawn_acc + 380,
                     blocks := [],
                     explosions := [] } := by
    rw [Game.update, if_pos (show gameC.state = GameState.PLAY from rfl), hhaz]
    unfold scorePhase
    split
    next hc => exact absurd hc (by decide)
    next hc => rfl
  refine ⟨rfl, rfl, by decide, by decide, ?_, ?_, ?_, ?_⟩
  · rw [heff, hb]
    decide
  · rw [hupd]
    rfl
  · rw [hupd]
  · rw [hupd]

/-- C6 (amended): within one PLAY tick, every obstacle that has reached the
ground after the motion phase is removed from the active set, and exactly
one hazard spanning the same columns (initial timer 380 ms) is created for
it; and — provided the tick duration is under the 380 ms hazard lifetime —
that hazard is evaluated for collision in the same tick, so a player
standing on the span when it lands is sent to game-over that tick.  (For
`dt ≥ 380` the fresh hazard expires in the landing tick before any check,
as the counterexample shows.) -/
theorem landing_collision_same_tick (g : Game) (dt : ℕ) (rands : List TryRand)
    (hplay : g.state = GameState.PLAY) :
    (Game.update g dt rands).blocks
        = (preHazard g dt rands).blocks.filter (fun b => ! b.hitGround)
    ∧ (groundPhase (preHazard g dt rands)).explosions
        = (preHazard g dt rands).explosions ++
          ((preHazard g dt rands).blocks.filter (fun b => b.hitGround)).map
            (fun b => { start_col := b.start_col, length := b.length, timer := 380 })
    ∧ ∀ b ∈ (preHazard g dt rands).blocks, b.hitGround = true → dt < 380 →
        b.start_col ≤ g.player_col → g.player_col ≤ b.start_col + b.length - 1 →
        (Game.update g dt rands).state = GameState.OVER := by
  refine ⟨?_, rfl, ?_⟩
  · rw [Game.update, if_pos hplay, scorePhase_blocks, hazardPhase_blocks,
      groundPhase_blocks]
  · intro b hb hhit hdt hs he
    rw [Game.update, if_pos hplay, scorePhase_state]
    have hp : (groundPhase (preHazard g dt rands)).player_col = g.player_col := by
      show (preHazard g dt rands).player_col = g.player_col
      exact preHazard_player_col g dt rands
    have hmem : ({ start_col := b.start_col, length := b.length, timer := 380 } : Explosion)
        ∈ (groundPhase (preHazard g dt rands)).explosions := by
      show _ ∈ (preHazard g dt rands).explosions ++
          ((preHazard g dt rands).blocks.filter (fun b => b.hitGround)).map
            (fun b => ({ start_col := b.start_col, length := b.length, timer := 380 } : Explosion))
      apply List.mem_append_right
      exact List.mem_map.mpr ⟨b, List.mem_filter.mpr ⟨hb, hhit⟩, rfl⟩
    have hany : ((groundPhase (preHazard g dt rands)).explosions.map
          (fun e => e.updateTimer dt)).any (fun e =>
            e.alive && decide (e.start_col ≤ (groundPhase (preHazard g dt rands)).player_col) &&
              decide ((groundPhase (preHazard g dt rands)).player_col
                ≤ e.start_col + e.length - 1)) = true := by
      apply List.any_eq_true.mpr
      refine ⟨Explosion.updateTimer { start_col := b.start_col, length := b.length, timer := 380 } dt,
        List.mem_map.mpr ⟨_, hmem, rfl⟩, ?_⟩
      simp only [Explosion.updateTimer, Explosion.alive, hp, Bool.and_eq_true,
        decide_eq_true_eq]
      refine ⟨⟨?_, hs⟩, he⟩
      omega
    unfold hazardPhase
    simp only [hany]
    rfl

/-- C6 amended witness: a block spanning columns 4–6 already touching the
ground, player at column 5, a 16 ms tick: the tick ends in game-over. -/
theorem landing_collision_same_tick_check :
    (Game.update gameA 16 []).state = GameState.OVER := by
  have heff : effectiveStepsPerSec
      { gameA with elapsed_ms := gameA.elapsed_ms + 16,
                   spawn_acc := gameA.spawn_acc + 16 } = 4 := by
    simp [effectiveStepsPerSec, gameA, gameC]
  have hb : Block.update 4 blockA 16
      = { start_col := 4, length := 3, steps_per_sec_base := 4, y := 622,
          acc_ms := 16, step_interval_ms := 250 } := by
    rw [blockUpdate_eq, recompute_four]
    simp [blockA, blockC]
  have hacc : accelStep { gameA with elapsed_ms := gameA.elapsed_ms + 16 }
      = { gameA with elapsed_ms := gameA.elapsed_ms + 16 } := by
    unfold accelStep
    rw [if_neg (by decide)]
  have hspawn : spawnPhase { gameA with elapsed_ms := gameA.elapsed_ms + 16 } 16 []
      = { gameA with elapsed_ms := gameA.elapsed_ms + 16,
                     spawn_acc := gameA.spawn_acc + 16 } := by
    apply spawnPhase_not_due
    decide
  have hpre : preHazard gameA 16 []
      = { gameA with elapsed_ms := gameA.elapsed_ms + 16,
                     spawn_acc := gameA.spawn_acc + 16,
                     blocks := [{ start_col := 4, length := 3, steps_per_sec_base := 4,
                                  y := 622, acc_ms := 16, step_interval_ms := 250 }] } := by
    unfold preHazard
    rw [hacc, hspawn]
    unfold motionPhase
    rw [heff]
    congr 1
    show List.map (fun b => Block.update 4 b 16) [blockA] = _
    rw [List.map_cons, List.map_nil, hb]
  have h := (landing_collision_same_tick gameA 16 [] rfl).2.2
  apply h { start_col := 4, length := 3, steps_per_sec_base := 4,
            y := 622, acc_ms := 16, step_interval_ms := 250 }
  · rw [hpre]
    exact List.mem_singleton.mpr rfl
  · decide
  · decide
  · decide
  · decide

/-! ### C7: commit semantics of the input buffer -/

/-- C7: for every commit.  An empty buffer is a complete no-op; a buffer
equal to the left word moves the player one column toward 0 (clamped) and
regenerates only the left word; a buffer equal to the right word (and not
the left) moves one column toward C-1 (clamped) and regenerates only the
right word; any other non-empty buffer changes neither the column nor the
words; and in every case the buffer is empty afterwards. -/
theorem commit_input_cases (g : Game) (w : String) :
    (g.input_buf = "" → commitInput g w = g)
    ∧ (g.input_buf ≠ "" → g.input_buf = g.left_word →
        (commitInput g w).player_col = movePlayer g.player_col (-1)
        ∧ (commitInput g w).left_word = w
        ∧ (commitInput g w).right_word = g.right_word
        ∧ (commitInput g w).input_buf = "")
    ∧ (g.input_buf ≠ "" → g.input_buf ≠ g.left_word → g.input_buf = g.right_word →
        (commitInput g w).player_col = movePlayer g.player_col 1
        ∧ (commitInput g w).right_word = w
        ∧ (commitInput g w).left_word = g.left_word
        ∧ (commitInput g w).input_buf = "")
    ∧ (g.input_buf ≠ "" → g.input_buf ≠ g.left_word → g.input_buf ≠ g.right_word →
        (commitInput g w).player_col = g.player_col
        ∧ (commitInput g w).left_word = g.left_word
        ∧ (commitInput g w).right_word = g.right_word
        ∧ (commitInput g w).input_buf = "")
    ∧ (commitInput g w).input_buf = "" := by
  refine ⟨?_, ?_, ?_, ?_, ?_⟩
  · intro h
    unfold commitInput
    rw [if_pos h]
  · intro hne hl
    unfold commitInput
    rw [if_neg hne, if_pos hl]
    exact ⟨rfl, rfl, rfl, rfl⟩
  · intro hne hnl hr
    unfold commitInput
    rw [if_neg hne, if_neg hnl, if_pos hr]
    exact ⟨rfl, rfl, rfl, rfl⟩
  · intro hne hnl hnr
    unfold commitInput
    rw [if_neg hne, if_neg hnl, if_neg hnr]
    exact ⟨rfl, rfl, rfl, rfl⟩
  · unfold commitInput
    split_ifs <;> first | assumption | rfl

/-- C7 witness (spec Scenario B): buffer "cat", left word "cat", right word
"dog", player at column 3: after the commit the player is at column 2, the
left word was regenerated, the right word kept, the buffer cleared. -/
theorem commit_input_cases_check :
    (commitInput gameB "fox").player_col = 2
    ∧ (commitInput gameB "fox").left_word = "fox"
    ∧ (commitInput gameB "fox").right_word = "dog"
    ∧ (commitInput gameB "fox").input_buf = "" := by
  have h := (commit_input_cases gameB "fox").2.1 (by decide) rfl
  refine ⟨?_, h.2.1, h.2.2.1, h.2.2.2⟩
  rw [h.1]
  decide

/-! ### C8: monotone difficulty -/

theorem accelStep_mono (g : Game) (h : GameInv g) :
    GameInv (accelStep g)
    ∧ g.accel_multiplier ≤ (accelStep g).accel_multiplier
    ∧ (accelStep g).accel_interval_ms ≤ g.accel_interval_ms
    ∧ (accelStep g).spawn_ms ≤ g.spawn_ms := by
  obtain ⟨h1, h2, h3⟩ := h
  have hm0 : (0 : ℚ) < g.accel_multiplier := lt_of_lt_of_le one_pos h1
  have hmm : g.accel_multiplier ≤ g.accel_multiplier * accelFactor :=
    le_mul_of_one_le_right hm0.le (by norm_num [accelFactor])
  unfold GameInv accelStep
  split
  case isTrue hdue =>
    have hdiv : (g.stage_spawn_ms : ℚ) / (g.accel_multiplier * accelFactor)
        ≤ (g.stage_spawn_ms : ℚ) / g.accel_multiplier := by
      gcongr
    refine ⟨⟨le_trans h1 hmm, le_max_left _ _, rfl⟩, hmm, ?_, ?_⟩
    · exact max_le h2 (Nat.sub_le _ _)
    · rw [h3]
      exact max_le_max (le_refl _) (Int.toNat_le_toNat (Int.floor_le_floor hdiv))
  case isFalse =>
    exact ⟨⟨h1, h2, h3⟩, le_refl _, le_refl _, le_refl _⟩

theorem update_inv_mono (g : Game) (dt : ℕ) (rands : List TryRand) (h : GameInv g) :
    GameInv (Game.update g dt rands)
    ∧ g.accel_multiplier ≤ (Game.update g dt rands).accel_multiplier
    ∧ (Game.update g dt rands).accel_interval_ms ≤ g.accel_interval_ms
    ∧ (Game.update g dt rands).spawn_ms ≤ g.spawn_ms := by
  by_cases hs : g.state = GameState.PLAY
  · rw [Game.update, if_pos hs]
    have e1 : (scorePhase (hazardPhase (groundPhase (preHazard g dt rands)) dt)).accel_multiplier
        = (accelStep { g with elapsed_ms := g.elapsed_ms + dt }).accel_multiplier := by
      rw [scorePhase_mult]
      show (spawnPhase (accelStep { g with elapsed_ms := g.elapsed_ms + dt }) dt rands).accel_multiplier = _
      rw [spawnPhase_mult]
    have e2 : (scorePhase (hazardPhase (groundPhase (preHazard g dt rands)) dt)).accel_interval_ms
        = (accelStep { g with elapsed_ms := g.elapsed_ms + dt }).accel_interval_ms := by
      rw [scorePhase_interval]
      show (spawnPhase (accelStep { g with elapsed_ms := g.elapsed_ms + dt }) dt rands).accel_interval_ms = _
      rw [spawnPhase_interval]
    have e3 : (scorePhase (hazardPhase (groundPhase (preHazard g dt rands)) dt)).spawn_ms
        = (accelStep { g with elapsed_ms := g.elapsed_ms + dt }).spawn_ms := by
      rw [scorePhase_spawn_ms]
      show (spawnPhase (accelStep { g with elapsed_ms := g.elapsed_ms + dt }) dt rands).spawn_ms = _
      rw [spawnPhase_spawn_ms]
    have e4 : (scorePhase (hazardPhase (groundPhase (preHazard g dt rands)) dt)).stage_spawn_ms
        = (accelStep { g with elapsed_ms := g.elapsed_ms + dt }).stage_spawn_ms := by
      rw [scorePhase_stage_spawn]
      show (spawnPhase (accelStep { g with elapsed_ms := g.elapsed_ms + dt }) dt rands).stage_spawn_ms = _
      rw [spawnPhase_stage_spawn]
    have hGE : GameInv { g with elapsed_ms := g.elapsed_ms + dt } := h
    obtain ⟨hI, hm, hi, hsp⟩ := accelStep_mono _ hGE
    refine ⟨?_, ?_, ?_, ?_⟩
    · unfold GameInv at hI ⊢
      rw [e1, e2, e3, e4]
      exact hI
    · rw [e1]
      exact hm
    · rw [e2]
      exact hi
    · rw [e3]
      exact hsp
  · rw [update_not_play g dt rands hs]
    exact ⟨h, le_refl _, le_refl _, le_refl _⟩

theorem runTicks_inv_mono (ticks : List (ℕ × List TryRand)) :
    ∀ g : Game, GameInv g →
      GameInv (runTicks g ticks)
      ∧ g.accel_multiplier ≤ (runTicks g ticks).accel_multiplier
      ∧ (runTicks g ticks).accel_interval_ms ≤ g.accel_interval_ms
      ∧ (runTicks g ticks).spawn_ms ≤ g.spawn_ms := by
  induction ticks with
  | nil =>
    intro g h
    exact ⟨h, le_refl _, le_refl _, le_refl _⟩
  | cons t ts ih =>
    intro g h
    obtain ⟨h1, h2, h3, h4⟩ := update_inv_mono g t.1 t.2 h
    obtain ⟨k1, k2, k3, k4⟩ := ih (Game.update g t.1 t.2) h1
    have hrun : runTicks g (t :: ts) = runTicks (Game.update g t.1 t.2) ts := by
      unfold runTicks
      rw [List.foldl_cons]
    rw [hrun]
    exact ⟨k1, le_trans h2 k2, le_trans k3 h3, le_trans k4 h4⟩

theorem startFixedStage_inv (g : Game) (stageSps : ℚ) (stageSpawn : ℕ)
    (wL wR : String) (rands : List TryRand) :
    GameInv (startFixedStage g stageSps stageSpawn wL wR rands) := by
  simp only [startFixedStage]
  split <;>
  · unfold GameInv
    refine ⟨?_, ?_, ?_⟩
    · exact le_refl (1 : ℚ)
    · show accelIntervalMinMs ≤ accelIntervalStartMs
      decide
    · show max spawnMsLowerBound stageSpawn
          = max spawnMsLowerBound (⌊(stageSpawn : ℚ) / 1⌋.toNat)
      rw [div_one]
      simp

/-- C8: monotone difficulty.  The invariant `GameInv` (multiplier at least
its starting value, ramp period at least its floor, spawn interval the
clamped formula) holds when a round starts, and over any sequence of ticks
the multiplier is non-decreasing, the ramp period non-increasing and never
below `accelIntervalMinMs`, and the spawn interval non-increasing and never
below `spawnMsLowerBound`. -/
theorem difficulty_monotone :
    (∀ (g0 : Game) (stageSps : ℚ) (stageSpawn : ℕ) (wL wR : String)
        (rands : List TryRand),
      GameInv (startFixedStage g0 stageSps stageSpawn wL wR rands))
    ∧ (∀ (g : Game) (ticks : List (ℕ × List TryRand)), GameInv g →
        GameInv (runTicks g ticks)
        ∧ g.accel_multiplier ≤ (runTicks g ticks).accel_multiplier
        ∧ (runTicks g ticks).accel_interval_ms ≤ g.accel_interval_ms
        ∧ accelIntervalMinMs ≤ (runTicks g ticks).accel_interval_ms
        ∧ (runTicks g ticks).spawn_ms ≤ g.spawn_ms
        ∧ spawnMsLowerBound ≤ (runTicks g ticks).spawn_ms) := by
  refine ⟨fun g0 s sp wL wR r => startFixedStage_inv g0 s sp wL wR r, ?_⟩
  intro g ticks h
  obtain ⟨h1, h2, h3, h4⟩ := runTicks_inv_mono ticks g h
  obtain ⟨k1, k2, k3⟩ := h1
  refine ⟨⟨k1, k2, k3⟩, h2, h3, k2, h4, ?_⟩
  rw [k3]
  exact le_max_left _ _

/-- C8 witness: a freshly started stage satisfies the invariant, and after a
16 ms tick the spawn interval is still at least its lower bound. -/
theorem difficulty_monotone_check :
    GameInv (runTicks (startFixedStage gameO 1 8000 "aa" "bb" []) [(16, [])])
    ∧ spawnMsLowerBound
        ≤ (runTicks (startFixedStage gameO 1 8000 "aa" "bb" []) [(16, [])]).spawn_ms := by
  obtain ⟨hstart, hmono⟩ := difficulty_monotone
  have h := hmono (startFixedStage gameO 1 8000 "aa" "bb" []) [(16, [])]
    (hstart gameO 1 8000 "aa" "bb" [])
  exact ⟨h.1, h.2.2.2.2.2⟩

/-! ### C9: the round result is computed once, from the survived time -/

/-- C9: on the tick where game-over is first detected, the stored result is
`survived_seconds = (elapsed + dt) / 1000` (integer seconds) and
`score = survived_seconds * 100` — in particular a round collapsing at
exactly 42317 ms scores 4200 — the processed flag is set, and on every later
tick the whole update is a no-op, so the stored result never changes. -/
theorem round_result_once (g : Game) (dt : ℕ) (rands : List TryRand) :
    (g.state = GameState.PLAY → g.gameover_processed = false →
      (Game.update g dt rands).state = GameState.OVER →
        (Game.update g dt rands).final_time_s = (g.elapsed_ms + dt) / 1000
        ∧ (Game.update g dt rands).final_score = ((g.elapsed_ms + dt) / 1000) * 100
        ∧ (Game.update g dt rands).gameover_processed = true
        ∧ (g.elapsed_ms + dt = 42317 → (Game.update g dt rands).final_score = 4200))
    ∧ (g.state = GameState.OVER → Game.update g dt rands = g) := by
  constructor
  · intro hplay hproc hover
    rw [Game.update, if_pos hplay] at hover ⊢
    have h5e : (hazardPhase (groundPhase (preHazard g dt rands)) dt).elapsed_ms
        = g.elapsed_ms + dt := by
      show (preHazard g dt rands).elapsed_ms = _
      unfold preHazard
      show (spawnPhase (accelStep { g with elapsed_ms := g.elapsed_ms + dt }) dt rands).elapsed_ms = _
      rw [spawnPhase_elapsed, accelStep_elapsed]
    have h5p : (hazardPhase (groundPhase (preHazard g dt rands)) dt).gameover_processed
        = false := by
      show (preHazard g dt rands).gameover_processed = false
      unfold preHazard
      show (spawnPhase (accelStep { g with elapsed_ms := g.elapsed_ms + dt }) dt rands).gameover_processed = false
      rw [spawnPhase_processed, accelStep_processed]
      exact hproc
    have h5s : (hazardPhase (groundPhase (preHazard g dt rands)) dt).state
        = GameState.OVER := by
      rw [← scorePhase_state]
      exact hover
    unfold scorePhase
    rw [if_pos ⟨h5s, h5p⟩]
    refine ⟨?_, ?_, rfl, ?_⟩
    · show (hazardPhase (groundPhase (preHazard g dt rands)) dt).elapsed_ms / 1000 = _
      rw [h5e]
    · show (hazardPhase (groundPhase (preHazard g dt rands)) dt).elapsed_ms / 1000 * 100 = _
      rw [h5e]
    · intro h42
      show (hazardPhase (groundPhase (preHazard g dt rands)) dt).elapsed_ms / 1000 * 100 = 4200
      rw [h5e, h42]
  · intro hover
    exact update_not_play g dt rands (by rw [hover]; decide)

/-- C9 witness (spec Scenario C): a round at 42301 ms that collides during a
16 ms tick (42317 ms survived) stores a final score of 4200, exactly once. -/
theorem round_result_once_check :
    (Game.update gameE 16 []).final_score = 4200
    ∧ (Game.update gameE 16 []).gameover_processed = true := by
  have hacc : accelStep { gameE with elapsed_ms := gameE.elapsed_ms + 16 }
      = { gameE with elapsed_ms := gameE.elapsed_ms + 16 } := by
    unfold accelStep
    rw [if_neg (by decide)]
  have hspawn : spawnPhase { gameE with elapsed_ms := gameE.elapsed_ms + 16 } 16 []
      = { gameE with elapsed_ms := gameE.elapsed_ms + 16,
                     spawn_acc := gameE.spawn_acc + 16 } := by
    apply spawnPhase_not_due
    decide
  have hpre : preHazard gameE 16 []
      = { gameE with elapsed_ms := gameE.elapsed_ms + 16,
                     spawn_acc := gameE.spawn_acc + 16 } := by
    unfold preHazard
    rw [hacc, hspawn]
    rfl
  have hover : (Game.update gameE 16 []).state = GameState.OVER := by
    rw [Game.update, if_pos (show gameE.state = GameState.PLAY from rfl),
      scorePhase_state, hpre]
    decide
  have h := (round_result_once gameE 16 []).1 rfl rfl hover
  exact ⟨h.2.2.2 rfl, h.2.2.1⟩

end TypingDodge
